import Mathlib

set_option maxRecDepth 8000

/-!
Verification of the response-normalization engine and orchestration layer of
the LLMvsClinicians repository.  The Python sources are embedded shallowly:
regular-expression matching is translated into explicit backtracking
enumerations over character lists (candidates listed in exactly the order the
Python `re` engine explores them), the Python dict into an insertion-ordered
association list, and the per-script batch loops into explicit folds.
-/

namespace LLMvC

/-- Python whitespace class (`\s`, `str.strip`): space, TAB, LF, VT, FF, CR. -/
def isPySpace (c : Char) : Bool :=
  c == ' ' || c == Char.ofNat 9 || c == Char.ofNat 10 ||
  c == Char.ofNat 11 || c == Char.ofNat 12 || c == Char.ofNat 13

/-- Case-mapping table of `str.lower` for the alphabet that occurs in this
repository: ASCII letters plus the uppercase umlauts. -/
def lowerTable : List (Char × Char) :=
  [('A', 'a'), ('B', 'b'), ('C', 'c'), ('D', 'd'), ('E', 'e'), ('F', 'f'),
   ('G', 'g'), ('H', 'h'), ('I', 'i'), ('J', 'j'), ('K', 'k'), ('L', 'l'),
   ('M', 'm'), ('N', 'n'), ('O', 'o'), ('P', 'p'), ('Q', 'q'), ('R', 'r'),
   ('S', 's'), ('T', 't'), ('U', 'u'), ('V', 'v'), ('W', 'w'), ('X', 'x'),
   ('Y', 'y'), ('Z', 'z'),
   (Char.ofNat 0xC4, Char.ofNat 0xE4), (Char.ofNat 0xD6, Char.ofNat 0xF6),
   (Char.ofNat 0xDC, Char.ofNat 0xFC)]

/-- Python `str.lower` on one character of that alphabet. -/
def pyLowerChar (c : Char) : Char :=
  match lowerTable.find? fun p => p.1 == c with
  | some p => p.2
  | none => c

/-- Python `str.lower` on a character list. -/
def pyLower (s : List Char) : List Char := s.map pyLowerChar

/-- Python `str.strip`: remove leading and trailing whitespace. -/
def pyStripL (s : List Char) : List Char :=
  ((s.dropWhile isPySpace).reverse.dropWhile isPySpace).reverse

/-- Python `text.split(chr(10))`: split into lines at newline characters
(empty pieces kept, exactly as `str.split` with an explicit separator). -/
def pySplitNL : List Char → List (List Char)
  | [] => [[]]
  | c :: t =>
    if c = Char.ofNat 10 then [] :: pySplitNL t
    else
      match pySplitNL t with
      | [] => [[c]]
      | h :: r => (c :: h) :: r

/-- Does the second list start with the first one (case-sensitive)? -/
def begins : List Char → List Char → Bool
  | [], _ => true
  | _ :: _, [] => false
  | a :: t, b :: u => a == b && begins t u

/-- Case-insensitive version of `begins` (per `re.IGNORECASE`). -/
def ciBegins : List Char → List Char → Bool
  | [], _ => true
  | _ :: _, [] => false
  | a :: t, b :: u => pyLowerChar a == pyLowerChar b && ciBegins t u

/-- Python `pat in s` substring test on character lists. -/
def subList (pat : List Char) : List Char → Bool
  | [] => pat.isEmpty
  | c :: t => begins pat (c :: t) || subList pat t

/-- Python `pat in s` with a string-literal needle. -/
def subIn (pat : String) (s : List Char) : Bool := subList pat.data s

/-- All remainders after consuming `\s*`, greedy candidate first. -/
def spaceSplits : List Char → List (List Char)
  | [] => [[]]
  | c :: t => if isPySpace c then spaceSplits t ++ [c :: t] else [c :: t]

/-- All remainders after consuming `\**`, greedy candidate first. -/
def starSplits : List Char → List (List Char)
  | [] => [[]]
  | c :: t => if c = '*' then starSplits t ++ [c :: t] else [c :: t]

/-- All remainders after consuming `\*+`, greedy candidate first. -/
def starPlusSplits : List Char → List (List Char)
  | [] => []
  | c :: t => if c = '*' then starSplits t else []

/-- All remainders after consuming `\*\*?`, greedy candidate first. -/
def ssOptSplits : List Char → List (List Char)
  | [] => []
  | [c] => if c = '*' then [[]] else []
  | c :: d :: t =>
    if c = '*' then (if d = '*' then [t, d :: t] else [d :: t]) else []

/-- All remainders after consuming the optional quote `(?:\'|\")?`,
greedy candidate first. -/
def quoteSplits : List Char → List (List Char)
  | [] => [[]]
  | c :: t =>
    if c = Char.ofNat 39 || c = Char.ofNat 34 then [t, c :: t] else [c :: t]

/-- All remainders after the bullet alternation
`(?:\*\s*|\*\*\*|\*+\s*\*\*?|[•\-]|[1-5]\.)`, alternatives in source
order, and greedy candidates first within each alternative. -/
def bulletTokenSplits (s : List Char) : List (List Char) :=
  (match s with
   | c :: t => if c = '*' then spaceSplits t else []
   | [] => []) ++
  (match s with
   | a :: b :: c :: t => if a = '*' ∧ b = '*' ∧ c = '*' then [t] else []
   | _ => []) ++
  ((starPlusSplits s).flatMap fun r => (spaceSplits r).flatMap ssOptSplits) ++
  (match s with
   | c :: t => if c = Char.ofNat 8226 ∨ c = '-' then [t] else []
   | [] => []) ++
  (match s with
   | a :: b :: t =>
     if (a = '1' ∨ a = '2' ∨ a = '3' ∨ a = '4' ∨ a = '5') ∧ b = '.'
     then [t] else []
   | _ => [])

/-- Nonempty split points of a list, shortest first component first
(the exploration order of a lazy `+?` group). -/
def splitsNE : List Char → List (List Char × List Char)
  | [] => []
  | c :: t => ([c], t) :: (splitsNE t).map fun p => (c :: p.1, p.2)

/-- Try to read one of the value tokens (alternation, in source order,
case-insensitive) as a prefix; return the consumed input text and the rest. -/
def valueTokFrom (toks : List String) (s : List Char) :
    Option (List Char × List Char) :=
  toks.findSome? fun p =>
    if ciBegins p.data s then some (s.take p.data.length, s.drop p.data.length)
    else none

/-- The part of the bullet pattern after the candidate label group `g1`:
`\**\s*:\s*(?:\'|\")?(VALUE)(?:\'|\")?.*`. -/
def bulletTail (vals : List String) (g1 t : List Char) :
    Option (List Char × List Char) :=
  if g1.all (fun c => c != ':') then
    (starSplits t).findSome? fun t1 =>
      (spaceSplits t1).findSome? fun t2 =>
        match t2 with
        | ':' :: t3 =>
          (spaceSplits t3).findSome? fun t4 =>
            (quoteSplits t4).findSome? fun t5 =>
              (valueTokFrom vals t5).map fun pr => (g1, pr.1)
        | _ => none
  else none

/-- Embedding of `bullet_point_pattern.match(line)`:
`^\s*(?:\*\s*|\*\*\*|\*+\s*\*\*?|[•\-]|[1-5]\.)\s*\**\s*([^:]+?)\**\s*:`
`\s*(?:\'|\")?(VALUE)(?:\'|\")?.*` with `re.IGNORECASE`, where `VALUE` is the
per-task token alternation.  Returns the two capture groups.  The nested
candidate enumerations reproduce the backtracking order of the `re` engine
(earlier atoms vary slowest, greedy atoms try longest first, the lazy label
group tries shortest first), so the first hit carries the same captures. -/
def bulletMatchW (vals : List String) (s : List Char) :
    Option (List Char × List Char) :=
  (spaceSplits s).findSome? fun s1 =>
    (bulletTokenSplits s1).findSome? fun s2 =>
      (spaceSplits s2).findSome? fun s3 =>
        (starSplits s3).findSome? fun s4 =>
          (spaceSplits s4).findSome? fun s5 =>
            (splitsNE s5).findSome? fun pr => bulletTail vals pr.1 pr.2

/-- Embedding of `standalone_answer_pattern.match(line)`:
`^\s*([A-Za-z\s]+):\s*(VALUE)` with `re.IGNORECASE`.  The label class is
greedy, hence candidates are enumerated longest first. -/
def standaloneMatchW (vals : List String) (s : List Char) :
    Option (List Char × List Char) :=
  (spaceSplits s).findSome? fun s1 =>
    ((splitsNE s1).reverse).findSome? fun pr =>
      if pr.1.all (fun c => c.isAlpha || isPySpace c) then
        match pr.2 with
        | ':' :: t2 =>
          (spaceSplits t2).findSome? fun t3 =>
            (valueTokFrom vals t3).map fun q => (pr.1, q.1)
        | _ => none
      else none

/-- Python `\w` over the alphabet used here (for the `\b` boundaries). -/
def isWordChar (c : Char) : Bool :=
  c.isAlphanum || c == '_' ||
  c == Char.ofNat 0xE4 || c == Char.ofNat 0xF6 || c == Char.ofNat 0xFC ||
  c == Char.ofNat 0xDF || c == Char.ofNat 0xC4 || c == Char.ofNat 0xD6 ||
  c == Char.ofNat 0xDC

/-- Left context allows a `\b` boundary here. -/
def faBoundary : Option Char → Bool
  | none => true
  | some c => !(isWordChar c)

/-- Does `\bfinal answer\b` (case-insensitive) match at the head of `s`? -/
def faHere (s : List Char) : Bool :=
  ciBegins "final answer".data s &&
    (match s.drop 12 with
     | [] => true
     | c :: _ => !(isWordChar c))

/-- Scan of all match positions for `final_answer_pattern.search`. -/
def faAux : Option Char → List Char → Bool
  | prev, [] => faBoundary prev && faHere []
  | prev, c :: t => (faBoundary prev && faHere (c :: t)) || faAux (some c) t

/-- Embedding of `final_answer_pattern.search(line)` for
`re.compile(r'\bfinal answer\b', re.IGNORECASE)`. -/
def faSearch (s : List Char) : Bool := faAux none s

/-- `d[k] = v` on an insertion-ordered dict. -/
def setKey : List (String × String) → String → String → List (String × String)
  | [], k, v => [(k, v)]
  | (k0, v0) :: t, k, v =>
    if k0 = k then (k, v) :: t else (k0, v0) :: setKey t k v

/-- `k in d` on an insertion-ordered dict. -/
def hasKey : List (String × String) → String → Bool
  | [], _ => false
  | (k0, _) :: t, k => k0 == k || hasKey t k

/-- `d[k] += v` on an insertion-ordered dict (keys unchanged). -/
def appendVal : List (String × String) → String → String →
    List (String × String)
  | [], _, _ => []
  | (k0, v0) :: t, k, v =>
    if k0 = k then (k0, v0 ++ v) :: t else (k0, v0) :: appendVal t k v

/-- `d[k]` lookup on an insertion-ordered dict. -/
def lookupKey : List (String × String) → String → Option String
  | [], _ => none
  | (k0, v0) :: t, k => if k0 = k then some v0 else lookupKey t k

/-- Value tokens of the pre/post-operative extractors: `(Yes|No|Ja|Nein)`. -/
def abVals : List String := ["Yes", "No", "Ja", "Nein"]

/-- Value tokens of the disease-course extractor:
`(Yes|No|Ja|Nein|provided|know)`. -/
def disVals : List String := ["Yes", "No", "Ja", "Nein", "provided", "know"]

/-- The inline German-value normalization of the pre/post-operative
extractors: `ja`/`nein` (any case) become `Yes`/`No`. -/
def valNormAB (v : String) : String :=
  if pyLower v.data = "ja".data then "Yes"
  else if pyLower v.data = "nein".data then "No"
  else v

/-- `normalize_response_value` of `AS_DisCourse_DataExtractor_local.py`. -/
def normalize_response_value (v : String) : String :=
  if pyLower v.data = "ja".data then "Yes"
  else if pyLower v.data = "nein".data then "No"
  else if pyLower v.data = "provided".data ∨ pyLower v.data = "know".data
  then "Zero"
  else v

/-- `standardize_variable_name` of `AS_PostOP_DataExtractor_Claude.py`. -/
def standardize_variable_name_postop (v : List Char) : Option String :=
  let w := pyLower v
  if subIn "leak" w || subIn "liquor" w then some "CSF Leak"
  else if subIn "infection" w || subIn "infektion" w then some "Infection"
  else if subIn "facial palsy" w || subIn "gesichtslähmung" w then
    some "Facial Palsy"
  else if subIn "facial numbness" w || subIn "taub" w then
    some "Facial Numbness"
  else if subIn "hearing loss" w || subIn "hörverlust" w then
    some "Hearing Loss"
  else none

/-- `standardize_variable_name` of `AS_PreOP_DataExtractor_Gemini.py`. -/
def standardize_variable_name_preop (v : List Char) : Option String :=
  let w := pyLower v
  if subIn "sudden" w || subIn "facial pain" w then some "Trigeminal Pain"
  else if subIn "facial numbness" w || subIn "taub" w then
    some "Facial Numbness"
  else if subIn "vertigo" w || subIn "dizz" w then some "Vertigo"
  else if subIn "lacrimation" w || subIn "tear" w then some "Lacrimation"
  else if subIn "spasm" w || subIn "muscle" w then some "Facial Muscle Spasm"
  else if subIn "other" w then some "Other"
  else none

/-- `standardize_variable_name` of `AS_DisCourse_DataExtractor_local.py`
(note `.lower().strip()` and the two leading exact-equality rules). -/
def standardize_variable_name_discourse (v : List Char) : Option String :=
  let w := pyStripL (pyLower v)
  if w = "free of pain after second surgery".data then
    some "Free of pain after second surgery"
  else if w = "recurrence after second surgery".data then
    some "Recurrence after second surgery"
  else if subIn "improvement" w || subIn "betterment" w then
    some "Symptom-improvement after 1. surgery"
  else if subIn "free of pain after first" w || subIn "painfree after first" w
      || subIn "painfree after 1" w || subIn "free of pain after 1" w then
    some "Free of pain after first surgery"
  else if subIn "recurrence after first" w || subIn "recurrence after 1" w then
    some "Recurrence after first surgery"
  else if subIn "second surgery" w || subIn "2nd surgery" w
      || subIn "2. surgery" w || subIn "a second surgery was carried out" w then
    some "Second surgery"
  else if subIn "thermocoag" w || subIn "coagulation" w then
    some "Thermocoagulation"
  else none

/-- Loop state of `extract_bullet_points`: the dict being built,
`current_variable`, and the `in_final_answer_section` flag. -/
structure PState where
  pts : List (String × String)
  cur : Option (List Char)
  flag : Bool

/-- The body of the bullet branch of `extract_bullet_points`: set
`current_variable` to the lowered stripped label, normalize the value token
with the task value-normalizer `norm`, and store it under the canonical name
when the label standardizes. -/
def bulletApply (stdz : List Char → Option String) (norm : String → String)
    (s : PState) (pr : List Char × List Char) : PState :=
  let curv := pyLower (pyStripL pr.1)
  let v := norm (String.mk (pyStripL pr.2))
  match stdz curv with
  | some nv => PState.mk (setKey s.pts nv v) (some curv) s.flag
  | none => PState.mk s.pts (some curv) s.flag

/-- The body of the standalone branch of `extract_bullet_points` (reached
only inside the final-answer section): like the bullet branch but without
touching `current_variable`, and only when the standalone pattern matches. -/
def standaloneApply (stdz : List Char → Option String) (norm : String → String)
    (vals : List String) (s : PState) (line : List Char) : PState :=
  match standaloneMatchW vals line with
  | some pr =>
    let varv := pyLower (pyStripL pr.1)
    let v := norm (String.mk (pyStripL pr.2))
    match stdz varv with
    | some nv => PState.mk (setKey s.pts nv v) s.cur s.flag
    | none => s
  | none => s

/-- The continuation branch of `extract_bullet_points`
(`elif current_variable and line: if current_variable in relevant_points:
relevant_points[current_variable] += f" - {line}"`). -/
def contStep (s : PState) (line : List Char) : PState :=
  match s.cur with
  | some c =>
    if c ≠ [] ∧ line ≠ [] then
      if hasKey s.pts (String.mk c) then
        PState.mk (appendVal s.pts (String.mk c) (" - " ++ String.mk line))
          s.cur s.flag
      else s
    else s
  | none => s

/-- One iteration of the `for line in lines` loop of `extract_bullet_points`
in `AS_PostOP_DataExtractor_Claude.py` / `AS_PreOP_DataExtractor_Gemini.py`
(the two bodies are textually identical; only `standardize_variable_name`
differs, so it is a parameter). -/
def stepAB (stdz : List Char → Option String) (s : PState) (rawLine : List Char) :
    PState :=
  let line := pyStripL rawLine
  if faSearch line then PState.mk s.pts s.cur true
  else
    match bulletMatchW abVals line with
    | some pr => bulletApply stdz valNormAB s pr
    | none =>
      if s.flag then standaloneApply stdz valNormAB abVals s line
      else contStep s line

/-- Initial loop state of `extract_bullet_points`. -/
def abInit : PState := PState.mk [] none false

/-- The whole `for line in lines` loop. -/
def runAB (stdz : List Char → Option String) (ls : List (List Char)) : PState :=
  ls.foldl (stepAB stdz) abInit

/-- `extract_bullet_points` of `AS_PostOP_DataExtractor_Claude.py`. -/
def extract_bullet_points_postop (text : String) : List (String × String) :=
  (runAB standardize_variable_name_postop (pySplitNL text.data)).pts

/-- `extract_bullet_points` of `AS_PreOP_DataExtractor_Gemini.py`. -/
def extract_bullet_points_preop (text : String) : List (String × String) :=
  (runAB standardize_variable_name_preop (pySplitNL text.data)).pts

/-- One iteration of the `for line in lines` loop of `extract_bullet_points`
in `AS_DisCourse_DataExtractor_local.py`: extended value alternation,
`normalize_response_value`, and no continuation branch. -/
def stepDis (s : PState) (rawLine : List Char) : PState :=
  let line := pyStripL rawLine
  if faSearch line then PState.mk s.pts s.cur true
  else
    match bulletMatchW disVals line with
    | some pr =>
      bulletApply standardize_variable_name_discourse normalize_response_value
        s pr
    | none =>
      if s.flag then
        standaloneApply standardize_variable_name_discourse
          normalize_response_value disVals s line
      else s

/-- `extract_bullet_points` of `AS_DisCourse_DataExtractor_local.py`. -/
def extract_bullet_points_discourse (text : String) : List (String × String) :=
  ((pySplitNL text.data).foldl stepDis abInit).pts

/-! ### Taxonomy rule lists (spec view, for the refinement comparison)

The spec describes `canonicalize` as an ordered list of
(fragment-set, canonical-name) rules matched by case-insensitive substring.
`firstMatch` is that description; the rule lists transcribe the fragments of
the corresponding `standardize_variable_name` chains. -/

/-- Does any fragment of the rule occur in the phrase? -/
def fragHits (frags : List String) (w : List Char) : Bool :=
  frags.any fun f => subIn f w

/-- First-match-wins evaluation of an ordered rule list (the matching rule
stated in spec section 4.1). -/
def firstMatch : List (List String × String) → List Char → Option String
  | [], _ => none
  | r :: t, w => if fragHits r.1 w then some r.2 else firstMatch t w

/-- The preoperative rule list, fragments transcribed in source order. -/
def preop_rules : List (List String × String) :=
  [(["sudden", "facial pain"], "Trigeminal Pain"),
   (["facial numbness", "taub"], "Facial Numbness"),
   (["vertigo", "dizz"], "Vertigo"),
   (["lacrimation", "tear"], "Lacrimation"),
   (["spasm", "muscle"], "Facial Muscle Spasm"),
   (["other"], "Other")]

/-- The disease-course rule list read as the spec describes it: every rule a
substring rule, including the two rules the source implements as exact
string equality. -/
def discourse_rules_as_substring : List (List String × String) :=
  [(["free of pain after second surgery"], "Free of pain after second surgery"),
   (["recurrence after second surgery"], "Recurrence after second surgery"),
   (["improvement", "betterment"], "Symptom-improvement after 1. surgery"),
   (["free of pain after first", "painfree after first", "painfree after 1",
     "free of pain after 1"], "Free of pain after first surgery"),
   (["recurrence after first", "recurrence after 1"],
    "Recurrence after first surgery"),
   (["second surgery", "2nd surgery", "2. surgery",
     "a second surgery was carried out"], "Second surgery"),
   (["thermocoag", "coagulation"], "Thermocoagulation")]

/-- Modelled from the spec: the disease-course `canonicalize` as spec section
4.1 words it, with all rules (including the first two) matched by substring.
Used only to compare against `standardize_variable_name_discourse`. -/
def discourse_canonicalize_spec (v : List Char) : Option String :=
  firstMatch discourse_rules_as_substring (pyStripL (pyLower v))

/-- The canonical names of the postoperative taxonomy, in rule order. -/
def postop_canonical_names : List String :=
  ["CSF Leak", "Infection", "Facial Palsy", "Facial Numbness", "Hearing Loss"]

/-- The canonical names of the preoperative taxonomy, in rule order. -/
def preop_canonical_names : List String :=
  ["Trigeminal Pain", "Facial Numbness", "Vertigo", "Lacrimation",
   "Facial Muscle Spasm", "Other"]

/-- The canonical names of the disease-course taxonomy, in rule order. -/
def discourse_canonical_names : List String :=
  ["Free of pain after second surgery", "Recurrence after second surgery",
   "Symptom-improvement after 1. surgery", "Free of pain after first surgery",
   "Recurrence after first surgery", "Second surgery", "Thermocoagulation"]

/-! ### Batch scheduler with rate limiting (`main` of
`AS_PreOP_DataExtractor_Gemini.py`, lines 319-333)

Wall-clock time is modelled by a rational clock; each case consumes an
abstract duration.  After every `rate_limit`-th case (`j % rate_limit == 0`)
the code computes `elapsed_time = time.time() - start_time`,
`remaining_time = 61 - elapsed_time`, sleeps `remaining_time` when it is
positive, and then resets `start_time` to the current time. -/

/-- One rate-limit window boundary: the window start it closed, the elapsed
time the code measured there, the amount it slept, and the new window start. -/
structure WinLog where
  old : ℚ
  elapsed : ℚ
  slept : ℚ
  new : ℚ

/-- Scheduler state: current clock, current `start_time`, the clock value at
which each case invocation started, and the window-boundary log. -/
structure GemState where
  clock : ℚ
  winStart : ℚ
  invs : List ℚ
  wlog : List WinLog

/-- Index a list from a starting position (the `enumerate(..., start=1)`). -/
def withIdxFrom : ℕ → List α → List (ℕ × α)
  | _, [] => []
  | k, a :: t => (k, a) :: withIdxFrom (k + 1) t

/-- One case of the scheduling loop: invoke the case (recording its start
time, advancing the clock by its duration), then apply the throttle after
every `rl`-th case, with the source constant 61. -/
def gemStep (rl : ℕ) (s : GemState) (jd : ℕ × ℚ) : GemState :=
  let c1 := s.clock + jd.2
  let invs1 := s.invs ++ [s.clock]
  if jd.1 % rl = 0 then
    let elapsed := c1 - s.winStart
    let rem := 61 - elapsed
    let slept := if 0 < rem then rem else 0
    let c2 := c1 + slept
    GemState.mk c2 c2 invs1 (s.wlog ++ [WinLog.mk s.winStart elapsed slept c2])
  else GemState.mk c1 s.winStart invs1 s.wlog

/-- The scheduling loop over the case durations `ds`, clock starting at 0. -/
def gemRun (rl : ℕ) (ds : List ℚ) : GemState :=
  (withIdxFrom 1 ds).foldl (gemStep rl) (GemState.mk 0 0 [] [])

/-- Modelled from the spec: the identical scheduler but with the minimum
window duration of 60 time units that spec section 4.4 and the claim state,
instead of the source constant 61. -/
def spec60Step (rl : ℕ) (s : GemState) (jd : ℕ × ℚ) : GemState :=
  let c1 := s.clock + jd.2
  let invs1 := s.invs ++ [s.clock]
  if jd.1 % rl = 0 then
    let elapsed := c1 - s.winStart
    let rem := 60 - elapsed
    let slept := if 0 < rem then rem else 0
    let c2 := c1 + slept
    GemState.mk c2 c2 invs1 (s.wlog ++ [WinLog.mk s.winStart elapsed slept c2])
  else GemState.mk c1 s.winStart invs1 s.wlog

/-- Modelled from the spec: the scheduling loop with the 60-unit window. -/
def spec60Run (rl : ℕ) (ds : List ℚ) : GemState :=
  (withIdxFrom 1 ds).foldl (spec60Step rl) (GemState.mk 0 0 [] [])

/-! ### Disease-course batch loop (`process_and_run_llm_for_subfolder` and
`main` of `AS_DisCourse_DataExtractor_local.py`)

The provider is abstracted as a function from iteration number and case
identifier (subfolder name) to either a raw answer or an error message;
a case is the pair of its identifier and its context text. -/

/-- `process_and_run_llm_for_subfolder`: on provider failure the exception is
caught, an error is printed and `None` is returned; on success the parsed
record is decorated with the provenance fields, in insertion order. -/
def discProcessCase (p : ℕ → String → Except String String) (i : ℕ)
    (c : String × String) : Option (List (String × String)) :=
  match p i c.1 with
  | Except.error _ => none
  | Except.ok raw =>
    some (setKey (setKey (setKey (setKey (extract_bullet_points_discourse raw)
      "Surname" "ANONYMIZED") "Name" "ANONYMIZED") "AI response" raw)
      "Parsed Data" c.2)

/-- The per-case console report: one error line naming the case identifier
when the provider call fails, nothing otherwise. -/
def discCaseLog (p : ℕ → String → Except String String) (i : ℕ)
    (c : String × String) : List String :=
  match p i c.1 with
  | Except.error e => ["Error processing " ++ c.1 ++ ": " ++ e]
  | Except.ok _ => []

/-- One iteration of `main`: visit every case in order and collect the
records of the successful ones (`if result: all_data.append(result)`). -/
def discIterStore (p : ℕ → String → Except String String) (i : ℕ)
    (cs : List (String × String)) : List (List (String × String)) :=
  cs.filterMap (discProcessCase p i)

/-! ### Result accumulator (`save_to_excel` of
`AS_PreOP_DataExtractor_Gemini.py`)

The workbook is `none` when the file does not exist yet (the
`FileNotFoundError` branch); otherwise it is the list of its rows, a row
being one optional cell per schema column (`None`/NaN is the empty marker). -/

/-- The fixed column schema of the preoperative store. -/
def preop_columns : List String :=
  ["Patient_ID", "Trigeminal Pain", "Facial Numbness", "Vertigo",
   "Lacrimation", "Facial Muscle Spasm", "Other", "AI response", "Parsed Data"]

/-- The row built from a record: one cell per schema column, in schema order;
columns the record does not set get the explicit empty marker `none`
(the loop `for col in columns: if col not in data: data[col] = None`
followed by `pd.DataFrame([data], columns=columns)`). -/
def preopRowOf (data : List (String × String)) : List (Option String) :=
  preop_columns.map (lookupKey data)

/-- Reloading the store: an absent file has no rows. -/
def storeRows (f : Option (List (List (Option String)))) :
    List (List (Option String)) :=
  f.getD []

/-- `save_to_excel`: load the existing rows (or start empty), append the new
row, rewrite the whole store. -/
def save_to_excel_preop (f : Option (List (List (Option String))))
    (data : List (String × String)) : Option (List (List (Option String))) :=
  some (storeRows f ++ [preopRowOf data])

/-! ### Python name resolution for `output_file` in
`AS_PreOP_DataExtractor_Gemini.py`

`process_and_run_llm_for_subfolder` calls `save_to_excel(data, output_file)`
(line 296).  A name used in a function body resolves to the local scope if
the function assigns it anywhere, else to the module-global scope.  The lists
below transcribe the names the module assigns at top level (imports and
assignments, lines 1-39 plus the function and constant definitions) and the
names `process_and_run_llm_for_subfolder` binds (parameters and local
assignments, lines 243-293).  `output_file` is assigned only inside `main`
(line 313), so it is local to `main` and in neither list. -/

/-- Module-scope names of `AS_PreOP_DataExtractor_Gemini.py`. -/
def preop_gemini_module_globals : List String :=
  ["os", "json", "requests", "datetime", "mammoth", "re", "pd", "time",
   "genai", "API_KEY", "model_name", "llm_nickname", "rate_limit",
   "main_folder", "output_folder", "n_subfolders", "sections", "iteration_n",
   "input_instructions", "combine_word_documents", "extract_section",
   "extract_bullet_points", "standardize_variable_name", "save_to_excel",
   "process_and_run_llm_for_subfolder", "main"]

/-- Names bound inside `process_and_run_llm_for_subfolder` (parameters and
assigned locals). -/
def preop_gemini_process_locals : List String :=
  ["subfolder_path", "api_key", "model_name", "subfolder_name",
   "combined_text", "context", "context_file_path", "file", "formatted_query",
   "model", "response", "full_response", "e", "relevant_points", "data"]

/-- Python name lookup for a name used in the function body: local scope,
then module scope. -/
def pyNameFound (locs gbls : List String) (n : String) : Bool :=
  locs.contains n || gbls.contains n

/-- The observable outcome of one `process_and_run_llm_for_subfolder` call.
The provider call sits in the only `try/except`; a failing call is caught
and the function returns without saving (`Except.ok none`).  On a successful
call the function reaches `save_to_excel(data, output_file)`, whose argument
evaluation looks up `output_file`; an unresolvable name raises `NameError`,
which nothing catches (`Except.error`). -/
def preop_process_subfolder (providerOk : Bool) : Except String (Option Unit) :=
  if providerOk then
    if pyNameFound preop_gemini_process_locals preop_gemini_module_globals
        "output_file" then
      Except.ok (some ())
    else Except.error "NameError"
  else Except.ok none

/-- The batch loop of `main`: process the cases in order; an uncaught
exception aborts the remaining loop (nothing in `main` catches it), while a
caught provider failure just contributes no record. -/
def preop_gemini_batch : List Bool → Except String (List Unit)
  | [] => Except.ok []
  | b :: t =>
    match preop_process_subfolder b with
    | Except.error e => Except.error e
    | Except.ok r => (preop_gemini_batch t).map fun rest => r.toList ++ rest

/-! ### Invariants used by the proofs -/

/-- Every key of the dict is one of the given canonical names. -/
def keysIn (canon : List String) (l : List (String × String)) : Prop :=
  ∀ kv ∈ l, kv.1 ∈ canon

/-- `current_variable`, when set, is the result of a `.lower()` call. -/
def curLowered (s : PState) : Prop :=
  ∀ c, s.cur = some c → ∃ g, c = pyLower g

/-- The reachability invariant of the `extract_bullet_points` loop. -/
def goodAB (canon : List String) (s : PState) : Prop :=
  keysIn canon s.pts ∧ curLowered s

/-- What one rate-limit window boundary satisfies: bookkeeping identity, the
exact sleep amount with the source constant 61, and the guaranteed window
length. -/
abbrev WinOk (e : WinLog) : Prop :=
  e.new = e.old + e.elapsed + e.slept ∧
  e.slept = (if e.elapsed < 61 then 61 - e.elapsed else 0) ∧
  e.old + 61 ≤ e.new

/-- Scheduler loop invariant: every logged window boundary satisfies
`WinOk`. -/
abbrev GemInv (s : GemState) : Prop :=
  ∀ e ∈ s.wlog, WinOk e

/-! ## Dictionary lemmas -/

theorem mem_setKey {l : List (String × String)} {k v : String}
    {kv : String × String} (h : kv ∈ setKey l k v) : kv = (k, v) ∨ kv ∈ l := by
  induction l with
  | nil => simpa [setKey] using h
  | cons hd tl ih =>
    rcases hd with ⟨k0, v0⟩
    by_cases hk : k0 = k
    · simp only [setKey, if_pos hk] at h
      rcases List.mem_cons.mp h with h1 | h1
      · exact Or.inl h1
      · exact Or.inr (List.mem_cons_of_mem _ h1)
    · simp only [setKey, if_neg hk] at h
      rcases List.mem_cons.mp h with h1 | h1
      · exact Or.inr (h1 ▸ List.mem_cons_self _ _)
      · rcases ih h1 with h2 | h2
        · exact Or.inl h2
        · exact Or.inr (List.mem_cons_of_mem _ h2)

theorem keysIn_setKey {canon : List String} {l : List (String × String)}
    {k v : String} (h : keysIn canon l) (hk : k ∈ canon) :
    keysIn canon (setKey l k v) := by
  intro kv hkv
  rcases mem_setKey hkv with h1 | h1
  · rw [h1]; exact hk
  · exact h kv h1

theorem keysIn_appendVal {canon : List String} {l : List (String × String)}
    {k v : String} (h : keysIn canon l) : keysIn canon (appendVal l k v) := by
  induction l with
  | nil => intro kv hkv; simp [appendVal] at hkv
  | cons hd tl ih =>
    rcases hd with ⟨k0, v0⟩
    intro kv hkv
    by_cases hk : k0 = k
    · simp only [appendVal, if_pos hk] at hkv
      rcases List.mem_cons.mp hkv with h1 | h1
      · rw [h1]; exact h (k0, v0) (List.mem_cons_self _ _)
      · exact h kv (List.mem_cons_of_mem _ h1)
    · simp only [appendVal, if_neg hk] at hkv
      rcases List.mem_cons.mp hkv with h1 | h1
      · exact h kv (h1 ▸ List.mem_cons_self _ _)
      · exact ih (fun kv' hkv' => h kv' (List.mem_cons_of_mem _ hkv')) kv h1

theorem hasKey_eq_false {l : List (String × String)} {k : String}
    (h : ∀ kv ∈ l, kv.1 ≠ k) : hasKey l k = false := by
  induction l with
  | nil => rfl
  | cons hd tl ih =>
    rcases hd with ⟨k0, v0⟩
    have h0 : k0 ≠ k := h (k0, v0) (List.mem_cons_self _ _)
    have ht : hasKey tl k = false :=
      ih fun kv hkv => h kv (List.mem_cons_of_mem _ hkv)
    simp [hasKey, h0, ht]

/-! ## Lower-casing lemmas -/

theorem pyLowerChar_ne_upper (u : Char) (h1 : u ∈ lowerTable.map Prod.fst)
    (h2 : u ∉ lowerTable.map Prod.snd) (x : Char) : pyLowerChar x ≠ u := by
  unfold pyLowerChar
  cases hf : lowerTable.find? fun p => p.1 == x with
  | none =>
    intro hxu
    have hxu2 : x = u := hxu
    rcases List.mem_map.mp h1 with ⟨p, hp, hpu⟩
    have hne := List.find?_eq_none.mp hf p hp
    rw [hpu, hxu2] at hne
    simp at hne
  | some p =>
    intro hpu
    have hp : p ∈ lowerTable := List.mem_of_find?_eq_some hf
    exact h2 (hpu ▸ List.mem_map_of_mem Prod.snd hp)

theorem mk_pyLower_ne {n : String} (c0 : Char) (hn : n.data.head? = some c0)
    (hc : ∀ x, pyLowerChar x ≠ c0) (g : List Char) :
    String.mk (pyLower g) ≠ n := by
  intro h
  have h2 : pyLower g = n.data := congrArg String.data h
  have h3 : g.head?.map pyLowerChar = some c0 := by
    rw [← List.head?_map]
    rw [show List.map pyLowerChar g = pyLower g from rfl, h2, hn]
  rcases Option.map_eq_some'.mp h3 with ⟨a, _, ha⟩
  exact hc a ha

theorem postop_names_ne_pyLower (g : List Char) :
    ∀ n ∈ postop_canonical_names, String.mk (pyLower g) ≠ n := by
  intro n hn
  fin_cases hn
  · exact mk_pyLower_ne 'C' (by decide)
      (pyLowerChar_ne_upper 'C' (by decide) (by decide)) g
  · exact mk_pyLower_ne 'I' (by decide)
      (pyLowerChar_ne_upper 'I' (by decide) (by decide)) g
  · exact mk_pyLower_ne 'F' (by decide)
      (pyLowerChar_ne_upper 'F' (by decide) (by decide)) g
  · exact mk_pyLower_ne 'F' (by decide)
      (pyLowerChar_ne_upper 'F' (by decide) (by decide)) g
  · exact mk_pyLower_ne 'H' (by decide)
      (pyLowerChar_ne_upper 'H' (by decide) (by decide)) g

theorem preop_names_ne_pyLower (g : List Char) :
    ∀ n ∈ preop_canonical_names, String.mk (pyLower g) ≠ n := by
  intro n hn
  fin_cases hn
  · exact mk_pyLower_ne 'T' (by decide)
      (pyLowerChar_ne_upper 'T' (by decide) (by decide)) g
  · exact mk_pyLower_ne 'F' (by decide)
      (pyLowerChar_ne_upper 'F' (by decide) (by decide)) g
  · exact mk_pyLower_ne 'V' (by decide)
      (pyLowerChar_ne_upper 'V' (by decide) (by decide)) g
  · exact mk_pyLower_ne 'L' (by decide)
      (pyLowerChar_ne_upper 'L' (by decide) (by decide)) g
  · exact mk_pyLower_ne 'F' (by decide)
      (pyLowerChar_ne_upper 'F' (by decide) (by decide)) g
  · exact mk_pyLower_ne 'O' (by decide)
      (pyLowerChar_ne_upper 'O' (by decide) (by decide)) g

/-! ## Branch lemmas for the extractor loop -/

theorem bulletApply_flag (stdz : List Char → Option String)
    (norm : String → String) (s : PState) (pr : List Char × List Char) :
    (bulletApply stdz norm s pr).flag = s.flag := by
  cases h : stdz (pyLower (pyStripL pr.1)) <;> simp [bulletApply, h]

theorem bulletApply_cur (stdz : List Char → Option String)
    (norm : String → String) (s : PState) (pr : List Char × List Char) :
    (bulletApply stdz norm s pr).cur = some (pyLower (pyStripL pr.1)) := by
  cases h : stdz (pyLower (pyStripL pr.1)) <;> simp [bulletApply, h]

theorem bulletApply_keysIn {canon : List String}
    {stdz : List Char → Option String} (norm : String → String) {s : PState}
    (pr : List Char × List Char)
    (hr : ∀ v n, stdz v = some n → n ∈ canon) (h : keysIn canon s.pts) :
    keysIn canon (bulletApply stdz norm s pr).pts := by
  cases hs : stdz (pyLower (pyStripL pr.1)) with
  | none => simpa [bulletApply, hs] using h
  | some nv =>
    simp only [bulletApply, hs]
    exact keysIn_setKey h (hr _ nv hs)

theorem bulletApply_none (stdz : List Char → Option String)
    (norm : String → String) (s : PState) (pr : List Char × List Char)
    (hs : stdz (pyLower (pyStripL pr.1)) = none) :
    (bulletApply stdz norm s pr).pts = s.pts := by
  simp [bulletApply, hs]

theorem standaloneApply_flag (stdz : List Char → Option String)
    (norm : String → String) (vals : List String) (s : PState)
    (line : List Char) :
    (standaloneApply stdz norm vals s line).flag = s.flag := by
  unfold standaloneApply
  cases hm : standaloneMatchW vals line with
  | none => rfl
  | some pr => cases hs : stdz (pyLower (pyStripL pr.1)) <;> simp [hs]

theorem standaloneApply_cur (stdz : List Char → Option String)
    (norm : String → String) (vals : List String) (s : PState)
    (line : List Char) :
    (standaloneApply stdz norm vals s line).cur = s.cur := by
  unfold standaloneApply
  cases hm : standaloneMatchW vals line with
  | none => rfl
  | some pr => cases hs : stdz (pyLower (pyStripL pr.1)) <;> simp [hs]

theorem standaloneApply_keysIn {canon : List String}
    {stdz : List Char → Option String} (norm : String → String)
    (vals : List String) {s : PState} (line : List Char)
    (hr : ∀ v n, stdz v = some n → n ∈ canon) (h : keysIn canon s.pts) :
    keysIn canon (standaloneApply stdz norm vals s line).pts := by
  unfold standaloneApply
  cases hm : standaloneMatchW vals line with
  | none => exact h
  | some pr =>
    cases hs : stdz (pyLower (pyStripL pr.1)) with
    | none => simpa [hs] using h
    | some nv =>
      simp only [hs]
      exact keysIn_setKey h (hr _ nv hs)

theorem contStep_flag (s : PState) (line : List Char) :
    (contStep s line).flag = s.flag := by
  unfold contStep
  cases s.cur with
  | none => rfl
  | some c =>
    by_cases h1 : c ≠ [] ∧ line ≠ []
    · by_cases h2 : hasKey s.pts (String.mk c) = true <;> simp [h1, h2]
    · simp [h1]

theorem contStep_cur (s : PState) (line : List Char) :
    (contStep s line).cur = s.cur := by
  unfold contStep
  cases hcur : s.cur with
  | none => exact hcur
  | some c =>
    by_cases h1 : c ≠ [] ∧ line ≠ []
    · by_cases h2 : hasKey s.pts (String.mk c) = true <;> simp [h1, h2, hcur]
    · simp [h1, hcur]

theorem contStep_keysIn {canon : List String} {s : PState} (line : List Char)
    (h : keysIn canon s.pts) : keysIn canon (contStep s line).pts := by
  unfold contStep
  cases s.cur with
  | none => exact h
  | some c =>
    by_cases h1 : c ≠ [] ∧ line ≠ []
    · by_cases h2 : hasKey s.pts (String.mk c) = true <;>
        simp [h1, h2, keysIn_appendVal h, h]
    · simp [h1, h]

/-- Under the loop invariant the continuation branch is dead code: the key it
tests is a `.lower()`-ed label while every stored key is a canonical name
starting with an uppercase letter, so the record is never touched. -/
theorem contStep_eq_self {canon : List String} {s : PState} (line : List Char)
    (hne : ∀ (g : List Char), ∀ n ∈ canon, String.mk (pyLower g) ≠ n)
    (hk : keysIn canon s.pts) (hc : curLowered s) : contStep s line = s := by
  unfold contStep
  cases hcur : s.cur with
  | none => rfl
  | some c =>
    by_cases h1 : c ≠ [] ∧ line ≠ []
    · rcases hc c hcur with ⟨g, rfl⟩
      have hfalse : hasKey s.pts (String.mk (pyLower g)) = false :=
        hasKey_eq_false fun kv hkv => Ne.symm (hne g kv.1 (hk kv hkv))
      simp [h1, hfalse]
    · simp [h1]

/-! ## Step and fold lemmas for the extractor loop -/

theorem stepAB_marker {stdz : List Char → Option String} {s : PState}
    {l : List Char} (h : faSearch (pyStripL l) = true) :
    stepAB stdz s l = PState.mk s.pts s.cur true := by
  simp [stepAB, h]

theorem stepAB_eq_bullet {stdz : List Char → Option String} {s : PState}
    {l : List Char} {pr : List Char × List Char}
    (hfa : faSearch (pyStripL l) = false)
    (hb : bulletMatchW abVals (pyStripL l) = some pr) :
    stepAB stdz s l = bulletApply stdz valNormAB s pr := by
  simp only [stepAB, hfa, Bool.false_eq_true, if_false, hb]

theorem stepAB_eq_standalone {stdz : List Char → Option String} {s : PState}
    {l : List Char} (hfa : faSearch (pyStripL l) = false)
    (hb : bulletMatchW abVals (pyStripL l) = none) (hflag : s.flag = true) :
    stepAB stdz s l = standaloneApply stdz valNormAB abVals s (pyStripL l) := by
  simp only [stepAB, hfa, Bool.false_eq_true, if_false, hb, hflag, if_true]

theorem stepAB_eq_cont {stdz : List Char → Option String} {s : PState}
    {l : List Char} (hfa : faSearch (pyStripL l) = false)
    (hb : bulletMatchW abVals (pyStripL l) = none) (hflag : s.flag = false) :
    stepAB stdz s l = contStep s (pyStripL l) := by
  simp only [stepAB, hfa, Bool.false_eq_true, if_false, hb, hflag]

theorem stepAB_flag_mono {stdz : List Char → Option String} {s : PState}
    {l : List Char} (h : s.flag = true) : (stepAB stdz s l).flag = true := by
  cases hfa : faSearch (pyStripL l)
  · cases hb : bulletMatchW abVals (pyStripL l) with
    | some pr => rw [stepAB_eq_bullet hfa hb, bulletApply_flag]; exact h
    | none => rw [stepAB_eq_standalone hfa hb h, standaloneApply_flag]; exact h
  · rw [stepAB_marker hfa]

theorem stepAB_no_marker_flag {stdz : List Char → Option String} {s : PState}
    {l : List Char} (h : faSearch (pyStripL l) = false) :
    (stepAB stdz s l).flag = s.flag := by
  cases hb : bulletMatchW abVals (pyStripL l) with
  | some pr => rw [stepAB_eq_bullet h hb, bulletApply_flag]
  | none =>
    cases hflag : s.flag
    · rw [stepAB_eq_cont h hb hflag, contStep_flag, hflag]
    · rw [stepAB_eq_standalone h hb hflag, standaloneApply_flag, hflag]

theorem stepAB_curLowered {stdz : List Char → Option String} {s : PState}
    {l : List Char} (h : curLowered s) : curLowered (stepAB stdz s l) := by
  cases hfa : faSearch (pyStripL l)
  · cases hb : bulletMatchW abVals (pyStripL l) with
    | some pr =>
      intro c hc
      rw [stepAB_eq_bullet hfa hb, bulletApply_cur] at hc
      exact ⟨pyStripL pr.1, (Option.some.inj hc).symm⟩
    | none =>
      cases hflag : s.flag
      · intro c hc
        rw [stepAB_eq_cont hfa hb hflag, contStep_cur] at hc
        exact h c hc
      · intro c hc
        rw [stepAB_eq_standalone hfa hb hflag, standaloneApply_cur] at hc
        exact h c hc
  · intro c hc
    rw [stepAB_marker hfa] at hc
    exact h c hc

theorem stepAB_keysIn {canon : List String} {stdz : List Char → Option String}
    {s : PState} {l : List Char}
    (hr : ∀ v n, stdz v = some n → n ∈ canon) (h : keysIn canon s.pts) :
    keysIn canon (stepAB stdz s l).pts := by
  cases hfa : faSearch (pyStripL l)
  · cases hb : bulletMatchW abVals (pyStripL l) with
    | some pr => rw [stepAB_eq_bullet hfa hb]; exact bulletApply_keysIn _ _ hr h
    | none =>
      cases hflag : s.flag
      · rw [stepAB_eq_cont hfa hb hflag]; exact contStep_keysIn _ h
      · rw [stepAB_eq_standalone hfa hb hflag]
        exact standaloneApply_keysIn _ _ _ hr h
  · rw [stepAB_marker hfa]; exact h

theorem stepAB_goodAB {canon : List String} {stdz : List Char → Option String}
    {s : PState} {l : List Char}
    (hr : ∀ v n, stdz v = some n → n ∈ canon) (h : goodAB canon s) :
    goodAB canon (stepAB stdz s l) :=
  ⟨stepAB_keysIn hr h.1, stepAB_curLowered h.2⟩

theorem foldAB_goodAB {canon : List String} {stdz : List Char → Option String}
    (hr : ∀ v n, stdz v = some n → n ∈ canon) :
    ∀ (ls : List (List Char)) (s : PState), goodAB canon s →
      goodAB canon (ls.foldl (stepAB stdz) s) := by
  intro ls
  induction ls with
  | nil => intro s h; exact h
  | cons l t ih => intro s h; exact ih _ (stepAB_goodAB hr h)

theorem goodAB_init (canon : List String) : goodAB canon abInit := by
  constructor
  · intro kv hkv; simp [abInit] at hkv
  · intro c hc; simp [abInit] at hc

theorem foldAB_flag_true {stdz : List Char → Option String} :
    ∀ (ls : List (List Char)) (s : PState), s.flag = true →
      (ls.foldl (stepAB stdz) s).flag = true := by
  intro ls
  induction ls with
  | nil => intro s h; exact h
  | cons l t ih => intro s h; exact ih _ (stepAB_flag_mono h)

theorem foldAB_flag_false {stdz : List Char → Option String} :
    ∀ (ls : List (List Char)) (s : PState), s.flag = false →
      (∀ l ∈ ls, faSearch (pyStripL l) = false) →
      (ls.foldl (stepAB stdz) s).flag = false := by
  intro ls
  induction ls with
  | nil => intro s h _; exact h
  | cons l t ih =>
    intro s h hm
    refine ih _ ?_ fun x hx => hm x (List.mem_cons_of_mem _ hx)
    rw [stepAB_no_marker_flag (hm l (List.mem_cons_self _ _))]
    exact h

theorem foldAB_flag_of_marker {stdz : List Char → Option String} :
    ∀ (ls : List (List Char)) (s : PState),
      (∃ l ∈ ls, faSearch (pyStripL l) = true) →
      (ls.foldl (stepAB stdz) s).flag = true := by
  intro ls
  induction ls with
  | nil => intro s h; rcases h with ⟨l, hl, _⟩; simp at hl
  | cons l t ih =>
    intro s h
    rcases h with ⟨x, hx, hPx⟩
    rcases List.mem_cons.mp hx with rfl | hx2
    · exact foldAB_flag_true t _ (by rw [stepAB_marker hPx])
    · exact ih _ ⟨x, hx2, hPx⟩

/-! ## Range of the standardizers -/

theorem postop_stdz_range :
    ∀ (v : List Char) (n : String), standardize_variable_name_postop v = some n →
      n ∈ postop_canonical_names := by
  intro v n h
  simp only [standardize_variable_name_postop] at h
  split_ifs at h <;> simp_all [postop_canonical_names]

theorem preop_stdz_range :
    ∀ (v : List Char) (n : String), standardize_variable_name_preop v = some n →
      n ∈ preop_canonical_names := by
  intro v n h
  simp only [standardize_variable_name_preop] at h
  split_ifs at h <;> simp_all [preop_canonical_names]

theorem discourse_stdz_range :
    ∀ (v : List Char) (n : String),
      standardize_variable_name_discourse v = some n →
      n ∈ discourse_canonical_names := by
  intro v n h
  simp only [standardize_variable_name_discourse] at h
  split_ifs at h <;> simp_all [discourse_canonical_names]

/-! ## Concrete step facts for the gating claim -/

/-- Before the final-answer marker, the bare line `Infection: No` changes
nothing: it is not a marker, not a bullet, the standalone branch is gated
off, and the continuation branch is dead under the loop invariant. -/
theorem stepAB_infection_before {s : PState} (hflag : s.flag = false)
    (hg : goodAB postop_canonical_names s) :
    (stepAB standardize_variable_name_postop s "Infection: No".data).pts
      = s.pts := by
  have hfa : faSearch (pyStripL "Infection: No".data) = false := by decide
  have hb : bulletMatchW abVals (pyStripL "Infection: No".data) = none := by
    decide
  rw [stepAB_eq_cont hfa hb hflag,
    contStep_eq_self _ postop_names_ne_pyLower hg.1 hg.2]

/-- After the final-answer marker, the same line stores `Infection ↦ No`
through the standalone branch. -/
theorem stepAB_infection_after {s : PState} (hflag : s.flag = true) :
    stepAB standardize_variable_name_postop s "Infection: No".data
      = PState.mk (setKey s.pts "Infection" "No") s.cur true := by
  have hfa : faSearch (pyStripL "Infection: No".data) = false := by decide
  have hb : bulletMatchW abVals (pyStripL "Infection: No".data) = none := by
    decide
  have hsa : standaloneMatchW abVals (pyStripL "Infection: No".data)
      = some ("Infection".data, "No".data) := by decide
  have hstdz : standardize_variable_name_postop
      (pyLower (pyStripL "Infection".data)) = some "Infection" := by decide
  have hval : valNormAB (String.mk (pyStripL "No".data)) = "No" := by decide
  rw [stepAB_eq_standalone hfa hb hflag]
  simp only [standaloneApply, hsa, hstdz, hval, hflag]

/-! ## Claim theorems -/

/-- Claim C1, counterexample: on the spec scenario the post-operative
normalizer stores `Facial Palsy ↦ "Yes"`; the annotation text
`mild, resolved in days` is not preserved alongside it (it does not occur in
the stored value), because the standalone pattern captures only the value
token. -/
theorem postop_scenario_annotation_cex :
    lookupKey (extract_bullet_points_postop
        "Reasoning...\nFinal answer:\nCSF Leak: No\nInfection: No\nFacial Palsy: Yes - mild, resolved in days")
        "Facial Palsy" = some "Yes"
  ∧ subIn "mild, resolved in days" "Yes".data = false :=
  ⟨by decide, by decide⟩

/-- Claim C1, amended: the scenario yields the record
`{CSF Leak ↦ No, Infection ↦ No, Facial Palsy ↦ Yes}` (in this insertion
order); the categorical part is `Yes`, and the trailing annotation text of
the `Facial Palsy` line is discarded, not preserved. -/
theorem postop_scenario_record :
    extract_bullet_points_postop
        "Reasoning...\nFinal answer:\nCSF Leak: No\nInfection: No\nFacial Palsy: Yes - mild, resolved in days"
      = [("CSF Leak", "No"), ("Infection", "No"), ("Facial Palsy", "Yes")] := by
  decide

/-- Claim C2: final-answer gating in the post-operative normalizer.  A bare
`Infection: No` line leaves the record unchanged when no earlier line
contains the marker, and stores `Infection ↦ No` when some earlier line
does; the flag set by a marker line is never reset (monotone across every
line); and a marker line itself never touches the record. -/
theorem postop_final_answer_gating :
    (∀ ls : List (List Char), (∀ l ∈ ls, faSearch (pyStripL l) = false) →
      (runAB standardize_variable_name_postop
          (ls ++ ["Infection: No".data])).pts
        = (runAB standardize_variable_name_postop ls).pts)
  ∧ (∀ ls : List (List Char), (∃ l ∈ ls, faSearch (pyStripL l) = true) →
      (runAB standardize_variable_name_postop
          (ls ++ ["Infection: No".data])).pts
        = setKey (runAB standardize_variable_name_postop ls).pts
            "Infection" "No")
  ∧ (∀ (s : PState) (l : List Char), s.flag = true →
      (stepAB standardize_variable_name_postop s l).flag = true)
  ∧ (∀ (s : PState) (l : List Char), faSearch (pyStripL l) = true →
      (stepAB standardize_variable_name_postop s l).pts = s.pts) := by
  refine ⟨?_, ?_, ?_, ?_⟩
  · intro ls hm
    have happ :
        runAB standardize_variable_name_postop (ls ++ ["Infection: No".data])
          = stepAB standardize_variable_name_postop
              (runAB standardize_variable_name_postop ls)
              "Infection: No".data := by
      simp [runAB, List.foldl_append]
    rw [happ]
    exact stepAB_infection_before
      (foldAB_flag_false ls abInit rfl hm)
      (foldAB_goodAB postop_stdz_range ls abInit (goodAB_init _))
  · intro ls hm
    have happ :
        runAB standardize_variable_name_postop (ls ++ ["Infection: No".data])
          = stepAB standardize_variable_name_postop
              (runAB standardize_variable_name_postop ls)
              "Infection: No".data := by
      simp [runAB, List.foldl_append]
    rw [happ]
    have hflagT : (runAB standardize_variable_name_postop ls).flag = true :=
      foldAB_flag_of_marker ls abInit hm
    rw [stepAB_infection_after hflagT]
  · intro s l h
    exact stepAB_flag_mono h
  · intro s l h
    rw [stepAB_marker h]

/-- Witness for claim C2 at concrete inputs. -/
theorem postop_final_answer_gating_witness :
    (runAB standardize_variable_name_postop
        (["Some reasoning".data] ++ ["Infection: No".data])).pts
      = (runAB standardize_variable_name_postop ["Some reasoning".data]).pts
  ∧ (runAB standardize_variable_name_postop
        (["Final answer:".data] ++ ["Infection: No".data])).pts
      = setKey (runAB standardize_variable_name_postop
          ["Final answer:".data]).pts "Infection" "No"
  ∧ (stepAB standardize_variable_name_postop (PState.mk [] none true)
        "text line".data).flag = true
  ∧ (stepAB standardize_variable_name_postop abInit
        "Final answer:".data).pts = abInit.pts :=
  ⟨postop_final_answer_gating.1 _ (by decide),
   postop_final_answer_gating.2.1 _ ⟨"Final answer:".data, by decide, by decide⟩,
   postop_final_answer_gating.2.2.1 _ _ rfl,
   postop_final_answer_gating.2.2.2 _ _ (by decide)⟩

/-- Claim C3, counterexample: `- Taubheit: Ja` normalizes to
`Facial Numbness ↦ Yes`, but `- Numbness: Yes` normalizes to the empty
record (the English fragment of the rule is the full phrase
`facial numbness`, which `numbness` does not contain), so the two lines do
not produce the same canonical key and value. -/
theorem postop_bilingual_cex :
    extract_bullet_points_postop "- Taubheit: Ja" = [("Facial Numbness", "Yes")]
  ∧ extract_bullet_points_postop "- Numbness: Yes" = []
  ∧ extract_bullet_points_postop "- Numbness: Yes"
      ≠ extract_bullet_points_postop "- Taubheit: Ja" :=
  ⟨by decide, by decide, by decide⟩

/-- Claim C3, amended: bilingual equivalence holds for the full English
phrase: `- Taubheit: Ja` and `- Facial Numbness: Yes` both normalize to the
record `{Facial Numbness ↦ Yes}`, while the bare `- Numbness: Yes` yields
the empty record. -/
theorem postop_bilingual_equivalence :
    extract_bullet_points_postop "- Taubheit: Ja" = [("Facial Numbness", "Yes")]
  ∧ extract_bullet_points_postop "- Facial Numbness: Yes"
      = [("Facial Numbness", "Yes")]
  ∧ extract_bullet_points_postop "- Numbness: Yes" = [] :=
  ⟨by decide, by decide, by decide⟩

/-- Claim C4: the continuation branch never fires.  After the recognized
bullet `- Vertigo: Yes`, the following plain line is not appended to the
stored entry: the preoperative record stays `{Vertigo ↦ Yes}` because the
branch tests the lowered raw label (`vertigo`, the value of
`current_variable` after the bullet) against the stored canonical key
(`Vertigo`), which never matches; the disease-course extractor has no
continuation branch at all. -/
theorem preop_continuation_never_appends :
    extract_bullet_points_preop
        "- Vertigo: Yes\nDue to vestibular schwannoma." = [("Vertigo", "Yes")]
  ∧ (runAB standardize_variable_name_preop ["- Vertigo: Yes".data]).cur
      = some "vertigo".data
  ∧ hasKey (runAB standardize_variable_name_preop
        ["- Vertigo: Yes".data]).pts "Vertigo" = true
  ∧ hasKey (runAB standardize_variable_name_preop
        ["- Vertigo: Yes".data]).pts "vertigo" = false
  ∧ extract_bullet_points_discourse
        "- Thermocoagulation: Yes\nExplanation line."
      = [("Thermocoagulation", "Yes")] :=
  ⟨by decide, by decide, by decide, by decide, by decide⟩

/-- Claim C5: every key the pre-operative normalizer ever returns is a
canonical taxonomy name; the canonical names are exactly the range of
`standardize_variable_name`; and a matched bullet line whose label
standardizes to `None` adds nothing to the record. -/
theorem preop_canonical_keys_only :
    (∀ (text : String) (kv : String × String),
        kv ∈ extract_bullet_points_preop text → kv.1 ∈ preop_canonical_names)
  ∧ (∀ n ∈ preop_canonical_names, ∃ p : List Char,
        standardize_variable_name_preop p = some n)
  ∧ (∀ (s : PState) (l : List Char) (pr : List Char × List Char),
        faSearch (pyStripL l) = false →
        bulletMatchW abVals (pyStripL l) = some pr →
        standardize_variable_name_preop (pyLower (pyStripL pr.1)) = none →
        (stepAB standardize_variable_name_preop s l).pts = s.pts) := by
  refine ⟨?_, ?_, ?_⟩
  · intro text kv hkv
    exact (foldAB_goodAB preop_stdz_range (pySplitNL text.data) abInit
      (goodAB_init _)).1 kv hkv
  · intro n hn
    fin_cases hn
    · exact ⟨"sudden".data, by decide⟩
    · exact ⟨"facial numbness".data, by decide⟩
    · exact ⟨"vertigo".data, by decide⟩
    · exact ⟨"lacrimation".data, by decide⟩
    · exact ⟨"spasm".data, by decide⟩
    · exact ⟨"other".data, by decide⟩
  · intro s l pr hfa hb hnone
    rw [stepAB_eq_bullet hfa hb]
    exact bulletApply_none _ _ _ _ hnone

/-- Witness for claim C5 at concrete inputs. -/
theorem preop_canonical_keys_only_witness :
    ("Vertigo", "Yes").1 ∈ preop_canonical_names
  ∧ (∃ p : List Char, standardize_variable_name_preop p = some "Vertigo")
  ∧ (stepAB standardize_variable_name_preop abInit
        "- Mystery Symptom: Yes".data).pts = abInit.pts :=
  ⟨preop_canonical_keys_only.1 "- Vertigo: Yes" ("Vertigo", "Yes") (by decide),
   preop_canonical_keys_only.2.1 "Vertigo" (by decide),
   preop_canonical_keys_only.2.2 abInit "- Mystery Symptom: Yes".data
     ("Mystery Symptom".data, "Yes".data) (by decide) (by decide) (by decide)⟩

/-! ## Batch scheduler, accumulator, and name-resolution lemmas -/

theorem filterMap_skip {α β : Type} (f : α → Option β) (pred : α → Bool)
    (h : ∀ a, pred a = false → f a = none) :
    ∀ l : List α, l.filterMap f = (l.filter pred).filterMap f := by
  intro l
  induction l with
  | nil => rfl
  | cons x t ih =>
    cases hp : pred x
    · rw [List.filterMap_cons, h x hp, List.filter_cons, hp]
      simpa using ih
    · rw [List.filter_cons, hp]
      simp only [if_true]
      rw [List.filterMap_cons, List.filterMap_cons, ih]

/-- Claim C6: when the provider call for one case fails in one iteration,
that call yields no record, the failure is reported with the case
identifier, the iteration store equals the store computed without that case
(remaining cases unaffected), and any iteration depends only on the
provider behaviour of that same iteration. -/
theorem discourse_failure_isolation :
    ∀ (p : ℕ → String → Except String String) (cs : List (String × String))
      (i : ℕ) (c : String × String) (e : String), p i c.1 = Except.error e →
        discProcessCase p i c = none
      ∧ discCaseLog p i c = ["Error processing " ++ c.1 ++ ": " ++ e]
      ∧ discIterStore p i cs = discIterStore p i (cs.filter fun x => x.1 != c.1)
      ∧ ∀ (q : ℕ → String → Except String String) (j : ℕ),
          (∀ cid, q j cid = p j cid) →
          discIterStore q j cs = discIterStore p j cs := by
  intro p cs i c e hp
  refine ⟨?_, ?_, ?_, ?_⟩
  · simp [discProcessCase, hp]
  · simp [discCaseLog, hp]
  · have hnone : ∀ a : String × String,
        (a.1 != c.1) = false → discProcessCase p i a = none := by
      intro a ha
      have ha2 : a.1 = c.1 := by simpa using ha
      simp [discProcessCase, ha2, hp]
    exact filterMap_skip _ _ hnone cs
  · intro q j hq
    exact List.filterMap_congr fun a _ => by
      simp [discProcessCase, hq a.1]

/-- Witness for claim C6: a transport error for case C7 in iteration 2. -/
theorem discourse_failure_isolation_witness :
    discProcessCase
        (fun i cid => if i = 2 ∧ cid = "C7" then Except.error "transport"
          else Except.ok "- Thermocoagulation: Yes") 2 ("C7", "ctx7") = none
  ∧ discCaseLog
        (fun i cid => if i = 2 ∧ cid = "C7" then Except.error "transport"
          else Except.ok "- Thermocoagulation: Yes") 2 ("C7", "ctx7")
      = ["Error processing C7: transport"]
  ∧ discIterStore
        (fun i cid => if i = 2 ∧ cid = "C7" then Except.error "transport"
          else Except.ok "- Thermocoagulation: Yes") 2
        [("C1", "ctx1"), ("C7", "ctx7")]
      = discIterStore
        (fun i cid => if i = 2 ∧ cid = "C7" then Except.error "transport"
          else Except.ok "- Thermocoagulation: Yes") 2
        ([("C1", "ctx1"), ("C7", "ctx7")].filter fun x => x.1 != "C7") := by
  have h := discourse_failure_isolation
    (fun i cid => if i = 2 ∧ cid = "C7" then Except.error "transport"
      else Except.ok "- Thermocoagulation: Yes")
    [("C1", "ctx1"), ("C7", "ctx7")] 2 ("C7", "ctx7") "transport" (by simp)
  exact ⟨h.1, h.2.1, h.2.2.1⟩

theorem gemStep_inv {rl : ℕ} {s : GemState} {jd : ℕ × ℚ} (h : GemInv s) :
    GemInv (gemStep rl s jd) := by
  simp only [gemStep]
  by_cases hj : jd.1 % rl = 0
  · rw [if_pos hj]
    intro ent hent
    rcases List.mem_append.mp hent with hold | hnew
    · exact h ent hold
    · rw [List.mem_singleton] at hnew
      subst hnew
      refine ⟨by dsimp only; ring, ?_, ?_⟩
      · dsimp only
        by_cases hlt : s.clock + jd.2 - s.winStart < 61
        · rw [if_pos hlt,
            if_pos (by linarith : (0 : ℚ) < 61 - (s.clock + jd.2 - s.winStart))]
        · rw [if_neg hlt, if_neg
            (by intro hcon; exact hlt (by linarith) :
              ¬(0 : ℚ) < 61 - (s.clock + jd.2 - s.winStart))]
      · dsimp only
        by_cases hlt : (0 : ℚ) < 61 - (s.clock + jd.2 - s.winStart)
        · rw [if_pos hlt]
          linarith
        · rw [if_neg hlt]
          have h61 : 61 - (s.clock + jd.2 - s.winStart) ≤ 0 := not_lt.mp hlt
          linarith
  · rw [if_neg hj]
    intro ent hent
    exact h ent hent

theorem gemRun_inv (rl : ℕ) (ds : List ℚ) : GemInv (gemRun rl ds) := by
  unfold gemRun
  have hinit : GemInv (GemState.mk 0 0 [] []) := by
    intro ent hent
    simp at hent
  generalize withIdxFrom 1 ds = l
  generalize GemState.mk 0 0 ([] : List ℚ) ([] : List WinLog) = s0 at hinit ⊢
  induction l generalizing s0 with
  | nil => exact hinit
  | cons jd t ih => exact ih _ (gemStep_inv hinit)

/-- Claim C7, counterexample: with quota 3 and case durations 20, 20, 20, 5,
the code schedules the 4th invocation at time 61, while the scheduler the
claim describes (minimum window duration 60, sleeping exactly the remainder
of the 60-unit window) schedules it at time 60: the code sleeps 1 unit even
though 60 units have already elapsed, because its constant is 61. -/
theorem gemini_rate_limit_60_cex :
    (gemRun 3 [20, 20, 20, 5]).invs = [0, 20, 40, 61]
  ∧ (spec60Run 3 [20, 20, 20, 5]).invs = [0, 20, 40, 60]
  ∧ (gemRun 3 [20, 20, 20, 5]).invs ≠ (spec60Run 3 [20, 20, 20, 5]).invs := by
  have h1 : (gemRun 3 [20, 20, 20, 5]).invs = [0, 20, 40, 61] := by
    simp [gemRun, gemStep, withIdxFrom]
    norm_num
  have h2 : (spec60Run 3 [20, 20, 20, 5]).invs = [0, 20, 40, 60] := by
    simp [spec60Run, spec60Step, withIdxFrom]
    norm_num
  refine ⟨h1, h2, ?_⟩
  intro heq
  rw [h1, h2] at heq
  norm_num at heq

/-- Claim C7, amended: after every `rate_limit`-th case the scheduler
computes the elapsed time since the window start and sleeps exactly
`61 - elapsed` when the elapsed time is below 61 (the source constant,
not 60), then starts the new window at the post-sleep clock; hence every
window lasts at least 61 units, in particular at least 60, so the next
(quota+1-th) invocation is delayed until at least 60 units after the window
began.  On durations 20, 20, 20, 5 with quota 3 the four invocations start
at 0, 20, 40 and 61. -/
theorem gemini_rate_limit_window :
    (∀ (rl : ℕ) (ds : List ℚ), ∀ e ∈ (gemRun rl ds).wlog,
        e.new = e.old + e.elapsed + e.slept
      ∧ e.slept = (if e.elapsed < 61 then 61 - e.elapsed else 0)
      ∧ e.old + 61 ≤ e.new ∧ e.old + 60 ≤ e.new)
  ∧ (gemRun 3 [20, 20, 20, 5]).invs = [0, 20, 40, 61]
  ∧ (gemRun 3 [20, 20, 20, 5]).wlog = [WinLog.mk 0 60 1 61] := by
  refine ⟨?_, ?_, ?_⟩
  · intro rl ds e he
    rcases gemRun_inv rl ds e he with ⟨h1, h2, h3⟩
    exact ⟨h1, h2, h3, by linarith⟩
  · simp [gemRun, gemStep, withIdxFrom]
    norm_num
  · simp [gemRun, gemStep, withIdxFrom]
    norm_num

/-- Witness for claim C7 at the concrete schedule. -/
theorem gemini_rate_limit_window_witness :
    (61 : ℚ) = 0 + 60 + 1
  ∧ (1 : ℚ) = (if (60 : ℚ) < 61 then 61 - 60 else 0)
  ∧ (0 : ℚ) + 61 ≤ 61 ∧ (0 : ℚ) + 60 ≤ 61 := by
  have h := gemini_rate_limit_window
  have hm : WinLog.mk 0 60 1 61 ∈ (gemRun 3 [20, 20, 20, 5]).wlog := by
    rw [h.2.2]
    exact List.mem_singleton_self _
  exact h.1 3 [20, 20, 20, 5] (WinLog.mk 0 60 1 61) hm

theorem save_fold (records : List (List (String × String))) :
    ∀ acc, storeRows (records.foldl save_to_excel_preop acc)
      = storeRows acc ++ records.map preopRowOf := by
  induction records with
  | nil => intro acc; simp
  | cons r t ih =>
    intro acc
    rw [List.foldl_cons, ih]
    simp [save_to_excel_preop, storeRows]

/-- Claim C8: appending N records to an initially absent store and
reloading yields exactly the N rows built from those records in order; every
row has one cell per schema column, and cell i of a row is exactly the
record value for column i, with the explicit empty marker `none` when the
record did not set that column. -/
theorem preop_store_round_trip :
    (∀ records : List (List (String × String)),
        storeRows (records.foldl save_to_excel_preop none)
          = records.map preopRowOf
      ∧ (storeRows (records.foldl save_to_excel_preop none)).length
          = records.length)
  ∧ (∀ data : List (String × String),
        (preopRowOf data).length = preop_columns.length)
  ∧ (∀ (data : List (String × String)) (i : ℕ),
        (preopRowOf data).get? i
          = (preop_columns.get? i).map (lookupKey data)) := by
  refine ⟨?_, ?_, ?_⟩
  · intro records
    have h : storeRows (records.foldl save_to_excel_preop none)
        = records.map preopRowOf := by
      simpa [storeRows] using save_fold records none
    exact ⟨h, by rw [h]; exact List.length_map _ _⟩
  · intro data
    exact List.length_map _ _
  · intro data i
    simp [preopRowOf, List.get?_map]

theorem preop_stdz_firstMatch :
    ∀ v : List Char, standardize_variable_name_preop v
      = firstMatch preop_rules (pyLower v) := by
  intro v
  simp only [standardize_variable_name_preop, firstMatch, preop_rules,
    fragHits, List.any_cons, List.any_nil, Bool.or_false]

theorem discourse_stdz_idem :
    ∀ (v : List Char) (c : String),
      standardize_variable_name_discourse v = some c →
      standardize_variable_name_discourse c.data = some c := by
  intro v c h
  have hc := discourse_stdz_range v c h
  simp only [discourse_canonical_names, List.mem_cons,
    List.not_mem_nil, or_false] at hc
  rcases hc with rfl | rfl | rfl | rfl | rfl | rfl | rfl <;> decide

theorem preop_stdz_idem_except :
    ∀ (v : List Char) (c : String),
      standardize_variable_name_preop v = some c →
      (c = "Trigeminal Pain" ∧ standardize_variable_name_preop c.data = none)
      ∨ standardize_variable_name_preop c.data = some c := by
  intro v c h
  have hc := preop_stdz_range v c h
  simp only [preop_canonical_names, List.mem_cons,
    List.not_mem_nil, or_false] at hc
  rcases hc with rfl | rfl | rfl | rfl | rfl | rfl
  · exact Or.inl ⟨rfl, by decide⟩
  · exact Or.inr (by decide)
  · exact Or.inr (by decide)
  · exact Or.inr (by decide)
  · exact Or.inr (by decide)
  · exact Or.inr (by decide)

/-- Claim C9, counterexample: `canonicalize` is not idempotent in the
preoperative taxonomy (`Trigeminal Pain` maps back to nothing, since it
contains neither `sudden` nor `facial pain`), and the disease-course
variant is not the pure ordered-substring matcher the claim describes: its
first two rules are exact string equality, so a phrase that properly
contains `free of pain after second surgery` falls through to the
`second surgery` rule instead. -/
theorem canonicalize_cex :
    standardize_variable_name_preop "sudden severe facial pain".data
      = some "Trigeminal Pain"
  ∧ standardize_variable_name_preop "Trigeminal Pain".data = none
  ∧ standardize_variable_name_discourse
        "free of pain after second surgery today".data = some "Second surgery"
  ∧ discourse_canonicalize_spec
        "free of pain after second surgery today".data
      = some "Free of pain after second surgery"
  ∧ standardize_variable_name_discourse
        "free of pain after second surgery today".data
      ≠ discourse_canonicalize_spec
        "free of pain after second surgery today".data :=
  ⟨by decide, by decide, by decide, by decide, by decide⟩

/-- Claim C9, amended: `canonicalize` is a pure function (hence
deterministic across repeated calls).  The preoperative variant is exactly
first-match-wins over its ordered substring-rule list after lower-casing.
The disease-course variant is idempotent on every canonical name it
returns; the preoperative variant is idempotent on every canonical name it
returns except `Trigeminal Pain`, on which it returns nothing. -/
theorem canonicalize_deterministic_idem :
    (∀ v : List Char, standardize_variable_name_preop v
        = firstMatch preop_rules (pyLower v))
  ∧ (∀ (v : List Char) (c : String),
        standardize_variable_name_discourse v = some c →
        standardize_variable_name_discourse c.data = some c)
  ∧ (∀ (v : List Char) (c : String),
        standardize_variable_name_preop v = some c →
        (c = "Trigeminal Pain" ∧ standardize_variable_name_preop c.data = none)
        ∨ standardize_variable_name_preop c.data = some c) :=
  ⟨preop_stdz_firstMatch, discourse_stdz_idem, preop_stdz_idem_except⟩

/-- Witness for claim C9 at concrete inputs. -/
theorem canonicalize_deterministic_idem_witness :
    standardize_variable_name_preop "vertigo attacks".data
      = firstMatch preop_rules (pyLower "vertigo attacks".data)
  ∧ standardize_variable_name_discourse "Thermocoagulation".data
      = some "Thermocoagulation"
  ∧ ((("Vertigo" : String) = "Trigeminal Pain"
        ∧ standardize_variable_name_preop "Vertigo".data = none)
      ∨ standardize_variable_name_preop "Vertigo".data = some "Vertigo") :=
  ⟨canonicalize_deterministic_idem.1 "vertigo attacks".data,
   canonicalize_deterministic_idem.2.1 "thermocoagulation done".data
     "Thermocoagulation" (by decide),
   canonicalize_deterministic_idem.2.2 "vertigo".data "Vertigo" (by decide)⟩

theorem preop_batch_error :
    ∀ pvs : List Bool, true ∈ pvs →
      preop_gemini_batch pvs = Except.error "NameError" := by
  intro pvs h
  induction pvs with
  | nil => simp at h
  | cons b t ih =>
    cases b
    · have ht : true ∈ t := by simpa using h
      have hstep : preop_gemini_batch (false :: t)
          = (preop_gemini_batch t).map
              (fun rest => (none : Option Unit).toList ++ rest) := rfl
      rw [hstep, ih ht]
      rfl
    · rfl

/-- Claim C10: the name `output_file` is bound neither at module scope of
`AS_PreOP_DataExtractor_Gemini.py` nor inside
`process_and_run_llm_for_subfolder` (it is a local of `main` only), so
every case whose provider call succeeds raises an uncaught `NameError` at
the persistence step, aborting the batch, while a failing provider call is
caught and merely skips the case. -/
theorem preop_output_file_name_error :
    "output_file" ∉ preop_gemini_module_globals
  ∧ "output_file" ∉ preop_gemini_process_locals
  ∧ preop_process_subfolder true = Except.error "NameError"
  ∧ preop_process_subfolder false = Except.ok none
  ∧ (∀ pvs : List Bool, true ∈ pvs →
      preop_gemini_batch pvs = Except.error "NameError") :=
  ⟨by decide, by decide, rfl, rfl, preop_batch_error⟩

/-- Witness for claim C10: a batch whose second case succeeds aborts with
the `NameError`. -/
theorem preop_output_file_name_error_witness :
    preop_gemini_batch [false, true, false] = Except.error "NameError" :=
  preop_output_file_name_error.2.2.2.2 [false, true, false] (by decide)

end LLMvC
